import Mathlib

/-!
# OWNERS tooling of the charts repository

A shallow embedding of the two command line programs

* `cmd/audit-owners/main.go`: walks a tree, gathers the handles of every
  `OWNERS` file and compares them with the collaborators of the repository;
* `cmd/gen-owners/main.go`: derives an `OWNERS` record from the maintainers
  of a `Chart.yaml`.

Both programs are sequential glue around external services.  Everything the
outside world answers (the file system, the YAML library, the GitHub API, the
order in which `range` enumerates a map) is an explicit input of the model;
everything the program does to the outside world (output lines, API requests,
the exit status) is recorded in a trace of effects.
-/

/-! ## `cmd/audit-owners/main.go` -/

namespace AuditOwners

/-- The portions of the owners file the program works with. -/
structure ownersConfig where
  Approvers : List String
  Reviewers : List String
deriving DecidableEq, Repr

/-- The collaborator record of the prow client; only `Login` is consulted. -/
structure User where
  Login : String
deriving DecidableEq, Repr

/-- The part of a `*http.Response` that the program reads. -/
structure Response where
  StatusCode : Int
  Status : String
deriving DecidableEq, Repr

/-- What the program does to the outside world, in program order. -/
inductive Effect where
  /-- One call of `fmt.Println` with its arguments. -/
  | println (args : List String)
  /-- One call of `fmt.Printf` with its format and arguments. -/
  | printf (format : String) (args : List String)
  /-- The call `gc.ListCollaborators(org, repo)`. -/
  | listCollaborators (org repo : String)
  /-- The call `c2.Repositories.AddCollaborator(ctx, owner, repo, user, opts)`
  with `opts.Permission = permission`. -/
  | addCollaborator (owner repo user permission : String)
deriving DecidableEq, Repr

/-- The keys of a Go `map[string]struct{}`, kept in a list.  The position of a
key in the list has no meaning for the program: `range` enumerates the keys in
an order of its own (see `Env.rangeKeys`). -/
abbrev HandleMap := List String

/-- The lookup `_, ok := handles[v]`. -/
def mapHas (handles : HandleMap) (v : String) : Bool :=
  decide (v ∈ handles)

/-- The assignment `handles[v] = struct{}{}`: a key that is present is
overwritten in place, a new key is added. -/
def mapSet (handles : HandleMap) (v : String) : HandleMap :=
  if v ∈ handles then handles else handles ++ [v]

/-- The body of both inner loops of the walk function:
`if _, ok := handles[v]; !ok { handles[v] = struct{}{} }`. -/
def addHandle (handles : HandleMap) (v : String) : HandleMap :=
  if !mapHas handles v then mapSet handles v else handles

/-- The loop `for _, v := range vs { ... }` over one list of an owners file. -/
def addHandles (handles : HandleMap) (vs : List String) : HandleMap :=
  vs.foldl addHandle handles

/-- One invocation of the walk function by `filepath.Walk`: the path, the
error handed in by the walker and `info.Name()`. -/
structure WalkEntry where
  path : String
  err : Option String
  name : String
deriving DecidableEq, Repr

/-- The outside world of one run. -/
structure Env where
  /-- The value of `os.Getenv("GITHUB_TOKEN")`. -/
  GITHUB_TOKEN : String
  /-- Flag `-b`. -/
  bulletList : Bool
  /-- Flag `-a`. -/
  updateCollab : Bool
  /-- The invocations of the walk function that `filepath.Walk(repoRoot, ...)`
  makes, in order, as long as the walk function returns `nil`. -/
  entries : List WalkEntry
  /-- The result of `ioutil.ReadFile(p)`. -/
  ReadFile : String → Except String String
  /-- The result of `yaml.Unmarshal(b, o)` on a fresh `ownersConfig`. -/
  Unmarshal : String → Except String ownersConfig
  /-- The order in which `for k := range handles` enumerates the keys. -/
  rangeKeys : HandleMap → List String
  /-- The result of `gc.ListCollaborators("kubernetes", "charts")`. -/
  ListCollaborators : Except String (List User)
  /-- The result of the `i`-th call of `AddCollaborator`, made for `user`. -/
  AddCollaborator : Nat → String → Except String Response

/-- The function `readOwners`. -/
def readOwners (env : Env) (p : String) : Except String ownersConfig :=
  match env.ReadFile p with
  | .error err => .error err
  | .ok b =>
    match env.Unmarshal b with
    | .error err => .error err
    | .ok o => .ok o

/-- The walk function handed to `filepath.Walk`, on the handles gathered so
far.  An error is the error the function returns. -/
def walkFn (env : Env) (handles : HandleMap) (e : WalkEntry) : Except String HandleMap :=
  match e.err with
  | some err => .error err
  | none =>
    if e.name = "OWNERS" then
      match readOwners env e.path with
      | .error e2 => .error e2
      | .ok y => .ok (addHandles (addHandles handles y.Approvers) y.Reviewers)
    else
      .ok handles

/-- The call `filepath.Walk(repoRoot, walkFn)`: the entries are visited in
order and the first error returned by the walk function ends the walk and is
the result. -/
def walk (env : Env) : HandleMap → List WalkEntry → Except String HandleMap
  | handles, [] => .ok handles
  | handles, e :: rest =>
    match walkFn env handles e with
    | .error err => .error err
    | .ok handles' => walk env handles' rest

/-- The inner loop over `users` with the flag `found`. -/
def found (users : List User) (k : String) : Bool :=
  match users with
  | [] => false
  | v :: rest => if v.Login = k then true else found rest k

/-- One round of `for k := range handles`: the state is `nameList` and the
output so far. -/
def missingStep (users : List User) (st : List String × List Effect) (k : String) :
    List String × List Effect :=
  if !found users k then
    (st.1 ++ [k],
     st.2 ++ [Effect.printf "GitHub Login %q found in OWNERS but not a collaborator\n" [k]])
  else st

/-- The loop that finds the owners which are not collaborators, run over the
keys in the order `ks`. -/
def findMissing (users : List User) (ks : List String) : List String × List Effect :=
  ks.foldl (missingStep users) ([], [])

/-- The block guarded by `bulletList`. -/
def report (nameList : List String) : List Effect :=
  [Effect.println ["\nGitHub Logins as a list:"]]
    ++ nameList.map (fun v => Effect.println ["*", v])
    ++ [Effect.println ["\nFor more details on having folks become part of the k8s GitHub org see:\nhttps://github.com/kubernetes/community/blob/master/community-membership.md#requirements-for-outside-collaborators"]]

/-- The loop guarded by `updateCollab`; `i` counts the calls made so far. -/
def remediate (add : Nat → String → Except String Response) : Nat → List String → List Effect
  | _, [] => []
  | i, v :: rest =>
    Effect.addCollaborator "kubernetes" "charts" v "pull" ::
      (match add i v with
       | .error err =>
         [Effect.printf "ERROR: Unable to add %q as collaborator: %s" [v, err]]
       | .ok resp =>
         if resp.StatusCode ≥ 300 || resp.StatusCode < 200 then
           [Effect.printf "ERROR: Unable to add %q as collaborator. Response %s" [v, resp.Status]]
         else [])
      ++ remediate add (i + 1) rest

/-- The result of a run: the exit status and the trace of effects. -/
structure Run where
  exitCode : Nat
  effects : List Effect
deriving DecidableEq, Repr

/-- The function `main`. -/
def main (env : Env) : Run :=
  if env.GITHUB_TOKEN = "" then
    ⟨1, [Effect.println
      ["Error: Please supply an environment variable named GITHUB_TOKEN with a valid token"]]⟩
  else
    match walk env [] env.entries with
    | .error err => ⟨1, [Effect.println ["Error walking the directory tree:", err]]⟩
    | .ok handles =>
      match env.ListCollaborators with
      | .error err =>
        ⟨1, [Effect.listCollaborators "kubernetes" "charts",
             Effect.println ["Error getting collaborators", err]]⟩
      | .ok users =>
        let r := findMissing users (env.rangeKeys handles)
        ⟨0, [Effect.listCollaborators "kubernetes" "charts"]
              ++ r.2
              ++ (if env.bulletList then report r.1 else [])
              ++ (if env.updateCollab then remediate env.AddCollaborator 0 r.1 else [])⟩

/-- The add-collaborator requests of a trace, in order:
(owner, repo, user, permission). -/
def addRequests (effects : List Effect) : List (String × String × String × String) :=
  effects.filterMap fun
    | Effect.addCollaborator o r u p => some (o, r, u, p)
    | _ => none

/-- Whether an effect is a request to the remote API. -/
def Effect.isRequest : Effect → Bool
  | Effect.listCollaborators _ _ => true
  | Effect.addCollaborator _ _ _ _ => true
  | _ => false

/-- The end-to-end scenario: two `OWNERS` files, one with the approvers a, b
and one with the reviewers b, c, next to entries of other names; the
collaborators are a and c; both flags are set and every request succeeds. -/
def scenario : Env where
  GITHUB_TOKEN := "token"
  bulletList := true
  updateCollab := true
  entries := [⟨".", none, "."⟩, ⟨"x", none, "x"⟩, ⟨"x/OWNERS", none, "OWNERS"⟩,
    ⟨"x/README.md", none, "README.md"⟩, ⟨"y", none, "y"⟩, ⟨"y/OWNERS", none, "OWNERS"⟩]
  ReadFile := fun p =>
    if p = "x/OWNERS" then .ok "approvers: [a, b]"
    else if p = "y/OWNERS" then .ok "reviewers: [b, c]"
    else .error "read: is a directory"
  Unmarshal := fun b =>
    if b = "approvers: [a, b]" then .ok ⟨["a", "b"], []⟩
    else if b = "reviewers: [b, c]" then .ok ⟨[], ["b", "c"]⟩
    else .error "yaml: unmarshal error"
  rangeKeys := fun handles => handles.reverse
  ListCollaborators := .ok [⟨"a"⟩, ⟨"c"⟩]
  AddCollaborator := fun _ _ => .ok ⟨201, "201 Created"⟩

/-- The scenario with the two directories visited in the other order. -/
def scenarioSwapped : List WalkEntry :=
  [⟨".", none, "."⟩, ⟨"y", none, "y"⟩, ⟨"y/OWNERS", none, "OWNERS"⟩, ⟨"x", none, "x"⟩,
    ⟨"x/OWNERS", none, "OWNERS"⟩, ⟨"x/README.md", none, "README.md"⟩]

/-- The scenario with a as the only collaborator, where the first
add-collaborator call ends in a transport error and every later one in the
status 404. -/
def scenarioFailing : Env :=
  { scenario with
    ListCollaborators := .ok [⟨"a"⟩]
    AddCollaborator := fun i _ =>
      if i = 0 then .error "dial tcp: i/o timeout" else .ok ⟨404, "404 Not Found"⟩ }

/-- The scenario with a first `OWNERS` file that parses and a second one that
does not, followed by a third one. -/
def scenarioBroken : Env :=
  { scenario with
    entries := [⟨".", none, "."⟩, ⟨"x/OWNERS", none, "OWNERS"⟩, ⟨"y/OWNERS", none, "OWNERS"⟩,
      ⟨"z/OWNERS", none, "OWNERS"⟩]
    ReadFile := fun p =>
      if p = "x/OWNERS" then .ok "approvers: [a, b]"
      else if p = "y/OWNERS" then .ok "reviewers: [b"
      else .ok "reviewers: [b, c]" }

/-- The scenario without a credential. -/
def scenarioNoToken : Env :=
  { scenario with GITHUB_TOKEN := "" }

end AuditOwners

/-! ## `cmd/gen-owners/main.go` -/

namespace GenOwners

/-- Whether the characters `sub` stand at the start of `s`. -/
def startsWith : List Char → List Char → Bool
  | _, [] => true
  | [], _ :: _ => false
  | c :: s, d :: sub => c == d && startsWith s sub

/-- Whether the characters `sub` occur somewhere in `s`, one after the other. -/
def containsAt : List Char → List Char → Bool
  | [], sub => startsWith [] sub
  | c :: s, sub => startsWith (c :: s) sub || containsAt s sub

/-- The library function `strings.Contains(s, substr)`. -/
def stringsContains (s substr : String) : Bool :=
  containsAt s.data substr.data

/-- The portions of the owners file the program works with. -/
structure ownersConfig where
  Approvers : List String
  Reviewers : List String
deriving DecidableEq, Repr

/-- One entry of `chart.Maintainers`. -/
structure Maintainer where
  Name : String
  Email : String
deriving DecidableEq, Repr

/-- The metadata of a chart, as far as the program reads it. -/
structure Chartfile where
  Maintainers : List Maintainer
deriving DecidableEq, Repr

/-- The user record of the go-github client; `Login` is a pointer there and
may be `nil`. -/
structure User where
  Login : Option String
deriving DecidableEq, Repr

/-- The accessor `GetLogin`: the login, or the empty string for `nil`. -/
def User.GetLogin (v : User) : String :=
  match v.Login with
  | some s => s
  | none => ""

/-- The part of a `*http.Response` that the program reads. -/
structure Response where
  StatusCode : Int
deriving DecidableEq, Repr

/-- What the program does to the outside world, in program order. -/
inductive Effect where
  /-- One call of `fmt.Println` with its arguments. -/
  | println (args : List String)
  /-- One call of `fmt.Printf` with its format and arguments. -/
  | printf (format : String) (args : List String)
  /-- The call `http.Get(url)`. -/
  | httpGet (url : String)
  /-- The call `client.Search.Users(ctx, query, opts)` of a client that
  authenticates with `accessToken`. -/
  | searchUsers (accessToken query : String)
  /-- The call `yaml.Marshal(ownrs)`. -/
  | marshal (ownrs : ownersConfig)
  /-- The call `ioutil.WriteFile(path, data, 0644)`. -/
  | writeFile (path data : String)
  /-- The call `os.OpenFile(path, os.O_APPEND|os.O_CREATE|os.O_WRONLY, 0644)`. -/
  | openFile (path : String)
  /-- The call `f.Write(data)` on the file opened at `path`. -/
  | write (path data : String)
  /-- The call `f.Close()` on the file opened at `path`. -/
  | close (path : String)
deriving DecidableEq, Repr

/-- The outside world of one run. -/
structure Env where
  /-- The value of `os.Getenv("GITHUB_TOKEN")`. -/
  GITHUB_TOKEN : String
  /-- Flag `-c`. -/
  chartYaml : String
  /-- Flag `-o`. -/
  writeOwners : Bool
  /-- Flag `-i`. -/
  updateHelmIgnore : Bool
  /-- Flag `-b`. -/
  handleBitnami : Bool
  /-- The result of `chartutil.LoadChartfile(chartYaml)`. -/
  LoadChartfile : String → Except String Chartfile
  /-- The result of `http.Get(url)` in the round of the `i`-th maintainer. -/
  Get : Nat → String → Except String Response
  /-- The result of `client.Search.Users(ctx, query, opts)` in the round of the
  `i`-th maintainer: the field `Users` of the answer, or the error. -/
  SearchUsers : Nat → String → Except String (List User)
  /-- The result of `yaml.Marshal(ownrs)`. -/
  Marshal : ownersConfig → Except String String
  /-- The library function `filepath.Dir`. -/
  Dir : String → String
  /-- The library function `filepath.Join` of two elements. -/
  Join : String → String → String
  /-- The error of `ioutil.WriteFile(path, data, 0644)`, if any. -/
  WriteFile : String → String → Option String
  /-- The error of `os.OpenFile(path, ...)`, if any. -/
  OpenFile : String → Option String
  /-- The error of `f.Write(data)`, if any. -/
  Write : String → String → Option String
  /-- The error of `f.Close()`, if any. -/
  Close : String → Option String

/-- The function `lookupName`, called in the round of the `i`-th maintainer:
the string it returns and what it does. -/
def lookupName (env : Env) (i : Nat) (name email : String) : String × List Effect :=
  let check :=
    if env.GITHUB_TOKEN = "" then
      [Effect.println
        ["Error: Please supply an environment variable named GITHUB_TOKEN with a valid token"]]
    else []
  let query := name ++ " " ++ email
  let pre := check ++ [Effect.searchUsers env.GITHUB_TOKEN query]
  match env.SearchUsers i query with
  | .error err => ("", pre ++ [Effect.println ["Unable to search of name", name, err]])
  | .ok users =>
    if users.length = 1 then
      match users with
      | v :: _ =>
        (v.GetLogin, pre ++ [Effect.printf "Found github id %q for name %q\n" [v.GetLogin, name]])
      | [] => ("", pre ++ [Effect.println ["WARNING: Unable to file a username for", name]])
    else if users.length > 1 then
      ("", pre ++ [Effect.println
        ["WARNING: Found multiple names for", name, "please try to manually find the names"]])
    else
      ("", pre ++ [Effect.println ["WARNING: Unable to file a username for", name]])

/-- Both statements `ownrs.Approvers = append(ownrs.Approvers, n)` and
`ownrs.Reviewers = append(ownrs.Reviewers, n)`. -/
def appendBoth (ownrs : ownersConfig) (n : String) : ownersConfig :=
  { Approvers := ownrs.Approvers ++ [n], Reviewers := ownrs.Reviewers ++ [n] }

/-- The call of `lookupName` followed by `if n != "" { ... }`. -/
def lookupAndAppend (env : Env) (i : Nat) (st : ownersConfig × List Effect) (m : Maintainer) :
    ownersConfig × List Effect :=
  let r := lookupName env i m.Name m.Email
  if r.1 ≠ "" then (appendBoth st.1 r.1, st.2 ++ r.2) else (st.1, st.2 ++ r.2)

/-- The body of the loop over `chart.Maintainers`, for the `i`-th maintainer;
the state is `ownrs` and the trace so far. -/
def resolve (env : Env) (i : Nat) (st : ownersConfig × List Effect) (m : Maintainer) :
    ownersConfig × List Effect :=
  if !stringsContains m.Name " " then
    let url := "https://github.com/" ++ m.Name
    match env.Get i url with
    | .error err =>
      (st.1, st.2 ++ [Effect.httpGet url, Effect.println ["Error: Problem fetching", m.Name, err]])
    | .ok resp =>
      if resp.StatusCode ≠ 200 then
        lookupAndAppend env i
          (st.1, st.2 ++ [Effect.httpGet url,
            Effect.println ["Error: Problem fetching", m.Name, "<nil>"]]) m
      else
        (appendBoth st.1 m.Name, st.2 ++ [Effect.httpGet url])
  else
    lookupAndAppend env i st m

/-- The loop over `chart.Maintainers`, from the `i`-th maintainer on. -/
def resolveAll (env : Env) : Nat → List Maintainer → ownersConfig × List Effect →
    ownersConfig × List Effect
  | _, [], st => st
  | i, m :: rest, st => resolveAll env (i + 1) rest (resolve env i st m)

/-- The handles appended for the bot. -/
def bitnamiPeople : List String := ["prydonius", "tompizmor", "sameersbn"]

/-- One of the two loops guarded by `handleBitnami`, on the list `l`:
`for _, v := range l { if v == "bitnami-bot" { l = append(l, ...) } }`.
Go evaluates the range expression once, before the first round, so the rounds
run over the elements the list had at that moment, while the appends extend the
list held by the variable. -/
def expandBitnami (l : List String) : List String :=
  l.foldl (fun acc v => if v = "bitnami-bot" then acc ++ bitnamiPeople else acc) l

/-- The block guarded by `handleBitnami`. -/
def handleBot (ownrs : ownersConfig) : ownersConfig :=
  { Approvers := expandBitnami ownrs.Approvers, Reviewers := expandBitnami ownrs.Reviewers }

/-- The result of a run: the exit status and the trace of effects. -/
structure Run where
  exitCode : Nat
  effects : List Effect
deriving DecidableEq, Repr

/-- The block guarded by `updateHelmIgnore`, in the directory `d`. -/
def appendHelmIgnore (env : Env) (d : String) : Run :=
  if env.updateHelmIgnore then
    let hp := env.Join d ".helmignore"
    let data := "# OWNERS file for Kubernetes\nOWNERS\n"
    let pre := [Effect.println ["Appending OWNERS to .helmignore"], Effect.openFile hp]
    match env.OpenFile hp with
    | some err => ⟨1, pre ++ [Effect.println ["Error appending .helmignore file:", err]]⟩
    | none =>
      match env.Write hp data with
      | some err =>
        ⟨1, pre ++ [Effect.write hp data,
          Effect.println ["Error appending .helmignore file:", err]]⟩
      | none =>
        match env.Close hp with
        | some err =>
          ⟨1, pre ++ [Effect.write hp data, Effect.close hp,
            Effect.println ["Error appending .helmignore file:", err]]⟩
        | none => ⟨0, pre ++ [Effect.write hp data, Effect.close hp]⟩
  else ⟨0, []⟩

/-- The block guarded by `writeOwners` and what follows it, in the directory
`d`, for the serialized record `out`. -/
def persist (env : Env) (d out : String) : Run :=
  if env.writeOwners then
    let p := env.Join d "OWNERS"
    let pre := [Effect.println ["Writing owners file"], Effect.writeFile p out]
    match env.WriteFile p out with
    | some err => ⟨1, pre ++ [Effect.println ["Error writing owners file:", err]]⟩
    | none =>
      let r := appendHelmIgnore env d
      ⟨r.exitCode, pre ++ r.effects⟩
  else appendHelmIgnore env d

/-- The record handed to `yaml.Marshal` for the maintainers `ms`, and the
trace up to that call. -/
def buildOwners (env : Env) (ms : List Maintainer) : ownersConfig × List Effect :=
  let st := resolveAll env 0 ms ({ Approvers := [], Reviewers := [] }, [])
  if env.handleBitnami then (handleBot st.1, st.2) else st

/-- The function `main`. -/
def main (env : Env) : Run :=
  match env.LoadChartfile env.chartYaml with
  | .error err => ⟨1, [Effect.println [err]]⟩
  | .ok chart =>
    let st := buildOwners env chart.Maintainers
    match env.Marshal st.1 with
    | .error err =>
      ⟨1, st.2 ++ [Effect.marshal st.1, Effect.println ["yaml.Marshal error", err]]⟩
    | .ok out =>
      let r := persist env (env.Dir env.chartYaml) out
      ⟨r.exitCode,
        st.2 ++ [Effect.marshal st.1, Effect.println ["OWNERS file content:"],
          Effect.println [out]] ++ r.effects⟩

/-- The user searches of a trace, in order: the queries. -/
def searches (effects : List Effect) : List String :=
  effects.filterMap fun
    | Effect.searchUsers _ q => some q
    | _ => none

/-- The records of a trace that were handed to the serializer. -/
def serialized (effects : List Effect) : List ownersConfig :=
  effects.filterMap fun
    | Effect.marshal o => some o
    | _ => none

/-- A run in which every external call succeeds: the maintainers are alice,
whose profile page exists, and Alice Smith, for whom the search finds the one
user alice123. -/
def scenario : Env where
  GITHUB_TOKEN := "token"
  chartYaml := "mychart/Chart.yaml"
  writeOwners := false
  updateHelmIgnore := false
  handleBitnami := false
  LoadChartfile := fun _ => .ok ⟨[⟨"alice", "alice@x.com"⟩, ⟨"Alice Smith", "a@x.com"⟩]⟩
  Get := fun _ url => if url = "https://github.com/alice" then .ok ⟨200⟩ else .ok ⟨404⟩
  SearchUsers := fun _ q =>
    if q = "Alice Smith a@x.com" then .ok [⟨some "alice123"⟩] else .ok []
  Marshal := fun _ => .ok "approvers: ...\nreviewers: ...\n"
  Dir := fun _ => "mychart"
  Join := fun d f => d ++ "/" ++ f
  WriteFile := fun _ _ => none
  OpenFile := fun _ => none
  Write := fun _ _ => none
  Close := fun _ => none

/-- The run of `scenario` without a credential, for the maintainer Alice Smith
alone. -/
def scenarioNoToken : Env :=
  { scenario with
    GITHUB_TOKEN := ""
    LoadChartfile := fun _ => .ok ⟨[⟨"Alice Smith", "a@x.com"⟩]⟩ }

/-- A run with two maintainers: alice, whose existence check ends in a
transport error, and a name with a tab and no space, whose existence check is
answered 200. -/
def scenarioNoSearch : Env :=
  { scenario with
    LoadChartfile := fun _ => .ok ⟨[⟨"alice", "alice@x.com"⟩, ⟨"Alice\tSmith", "a@x.com"⟩]⟩
    Get := fun i _ => if i = 0 then .error "dial tcp: i/o timeout" else .ok ⟨200⟩ }

/-- The run of `scenario` for Alice Smith alone, where the search finds one
user whose login is the empty string. -/
def scenarioEmptyLogin : Env :=
  { scenario with
    LoadChartfile := fun _ => .ok ⟨[⟨"Alice Smith", "a@x.com"⟩]⟩
    SearchUsers := fun _ _ => .ok [⟨some ""⟩] }

/-- The run of `scenario` for the maintainer dave alone, whose existence
check is answered with the status 201 and for whom the search finds nobody. -/
def scenarioCreated : Env :=
  { scenario with
    LoadChartfile := fun _ => .ok ⟨[⟨"dave", "d@x.com"⟩]⟩
    Get := fun _ _ => .ok ⟨201⟩
    SearchUsers := fun _ _ => .ok [] }

end GenOwners

/-! ## Properties of `audit-owners` -/

namespace AuditOwners

theorem mem_mapSet (handles : HandleMap) (v h : String) :
    h ∈ mapSet handles v ↔ h ∈ handles ∨ h = v := by
  unfold mapSet
  split
  · constructor
    · intro hm
      exact Or.inl hm
    · rintro (hm | rfl)
      · exact hm
      · assumption
  · simp

theorem nodup_mapSet (handles : HandleMap) (v : String) (hn : handles.Nodup) :
    (mapSet handles v).Nodup := by
  unfold mapSet
  split
  · exact hn
  · rename_i hv
    rw [List.nodup_append]
    refine ⟨hn, List.nodup_singleton v, ?_⟩
    intro a ha hb
    rw [List.mem_singleton] at hb
    subst hb
    exact hv ha

theorem addHandle_eq_mapSet (handles : HandleMap) (v : String) :
    addHandle handles v = mapSet handles v := by
  unfold addHandle mapHas mapSet
  by_cases hv : v ∈ handles <;> simp [hv]

theorem addHandle_of_mem (handles : HandleMap) (v : String) (hv : v ∈ handles) :
    addHandle handles v = handles := by
  unfold addHandle mapHas
  simp [hv]

theorem mem_addHandles (vs : List String) (handles : HandleMap) (h : String) :
    h ∈ addHandles handles vs ↔ h ∈ handles ∨ h ∈ vs := by
  induction vs generalizing handles with
  | nil => simp [addHandles]
  | cons v vs ih =>
    have step : addHandles handles (v :: vs) = addHandles (addHandle handles v) vs := rfl
    rw [step, ih, addHandle_eq_mapSet, mem_mapSet, List.mem_cons]
    tauto

theorem nodup_addHandles (vs : List String) (handles : HandleMap) (hn : handles.Nodup) :
    (addHandles handles vs).Nodup := by
  induction vs generalizing handles with
  | nil => simpa [addHandles] using hn
  | cons v vs ih =>
    have step : addHandles handles (v :: vs) = addHandles (addHandle handles v) vs := rfl
    rw [step]
    apply ih
    rw [addHandle_eq_mapSet]
    exact nodup_mapSet handles v hn

/-- What a successful call of the walk function returns. -/
theorem walkFn_ok (env : Env) (handles handles' : HandleMap) (e : WalkEntry)
    (hw : walkFn env handles e = .ok handles') :
    e.err = none ∧
    ((e.name ≠ "OWNERS" ∧ handles' = handles) ∨
     (e.name = "OWNERS" ∧ ∃ y, readOwners env e.path = .ok y ∧
        handles' = addHandles (addHandles handles y.Approvers) y.Reviewers)) := by
  unfold walkFn at hw
  cases he : e.err with
  | some err => rw [he] at hw; simp at hw
  | none =>
    rw [he] at hw
    refine ⟨rfl, ?_⟩
    by_cases hn : e.name = "OWNERS"
    · right
      refine ⟨hn, ?_⟩
      simp only [hn, if_true] at hw
      cases hr : readOwners env e.path with
      | error e2 => rw [hr] at hw; simp at hw
      | ok y =>
        rw [hr] at hw
        refine ⟨y, rfl, ?_⟩
        simp only [Except.ok.injEq] at hw
        exact hw.symm
    · left
      refine ⟨hn, ?_⟩
      simp only [hn, if_false, Except.ok.injEq] at hw
      exact hw.symm

/-- Whether the walk function fails does not depend on the handles gathered
so far. -/
theorem walkFn_ok_of_ok (env : Env) (m m' n : HandleMap) (e : WalkEntry)
    (hw : walkFn env m e = .ok m') : ∃ n', walkFn env n e = .ok n' := by
  obtain ⟨he, hcase⟩ := walkFn_ok env m m' e hw
  unfold walkFn
  rw [he]
  rcases hcase with ⟨hn, _⟩ | ⟨hn, y, hy, _⟩
  · exact ⟨n, by simp [hn]⟩
  · exact ⟨addHandles (addHandles n y.Approvers) y.Reviewers, by simp [hn, hy]⟩

theorem walk_nodup (env : Env) (entries : List WalkEntry) (m handles : HandleMap)
    (hn : m.Nodup) (hw : walk env m entries = .ok handles) : handles.Nodup := by
  induction entries generalizing m with
  | nil =>
    simp only [walk, Except.ok.injEq] at hw
    exact hw ▸ hn
  | cons e rest ih =>
    simp only [walk] at hw
    cases hf : walkFn env m e with
    | error err => rw [hf] at hw; simp at hw
    | ok m' =>
      rw [hf] at hw
      apply ih m' _ hw
      obtain ⟨_, hcase⟩ := walkFn_ok env m m' e hf
      rcases hcase with ⟨_, rfl⟩ | ⟨_, y, _, rfl⟩
      · exact hn
      · exact nodup_addHandles _ _ (nodup_addHandles _ _ hn)

theorem walk_mem (env : Env) (entries : List WalkEntry) (m handles : HandleMap)
    (hw : walk env m entries = .ok handles) (h : String) :
    h ∈ handles ↔ h ∈ m ∨ ∃ e ∈ entries, e.name = "OWNERS" ∧
      ∃ y, readOwners env e.path = .ok y ∧ (h ∈ y.Approvers ∨ h ∈ y.Reviewers) := by
  induction entries generalizing m with
  | nil =>
    simp only [walk, Except.ok.injEq] at hw
    subst hw
    simp
  | cons e rest ih =>
    simp only [walk] at hw
    cases hf : walkFn env m e with
    | error err => rw [hf] at hw; simp at hw
    | ok m' =>
      rw [hf] at hw
      rw [ih m' hw]
      obtain ⟨_, hcase⟩ := walkFn_ok env m m' e hf
      rcases hcase with ⟨hne, rfl⟩ | ⟨hname, y, hy, rfl⟩
      · constructor
        · rintro (hm | ⟨x, hx, hrest⟩)
          · exact Or.inl hm
          · exact Or.inr ⟨x, List.mem_cons_of_mem _ hx, hrest⟩
        · rintro (hm | ⟨x, hx, hxn, hrest⟩)
          · exact Or.inl hm
          · rcases List.mem_cons.1 hx with rfl | hx
            · exact absurd hxn hne
            · exact Or.inr ⟨x, hx, hxn, hrest⟩
      · rw [mem_addHandles, mem_addHandles]
        constructor
        · rintro (((hm | ha) | hr) | ⟨x, hx, hrest⟩)
          · exact Or.inl hm
          · exact Or.inr ⟨e, List.mem_cons_self _ _, hname, y, hy, Or.inl ha⟩
          · exact Or.inr ⟨e, List.mem_cons_self _ _, hname, y, hy, Or.inr hr⟩
          · exact Or.inr ⟨x, List.mem_cons_of_mem _ hx, hrest⟩
        · rintro (hm | ⟨x, hx, hxn, y', hy', hmem⟩)
          · exact Or.inl (Or.inl (Or.inl hm))
          · rcases List.mem_cons.1 hx with rfl | hx
            · rw [hy] at hy'
              simp only [Except.ok.injEq] at hy'
              subst hy'
              rcases hmem with ha | hr
              · exact Or.inl (Or.inl (Or.inr ha))
              · exact Or.inl (Or.inr hr)
            · exact Or.inr ⟨x, hx, hxn, y', hy', hmem⟩

/-- A walk succeeds exactly when the walk function succeeds on every entry. -/
theorem walk_ok_iff (env : Env) (entries : List WalkEntry) (m : HandleMap) :
    (∃ handles, walk env m entries = .ok handles) ↔
      ∀ e ∈ entries, ∃ n, walkFn env [] e = .ok n := by
  induction entries generalizing m with
  | nil => simp [walk]
  | cons e rest ih =>
    constructor
    · rintro ⟨handles, hw⟩
      simp only [walk] at hw
      cases hf : walkFn env m e with
      | error err => rw [hf] at hw; simp at hw
      | ok m' =>
        rw [hf] at hw
        intro x hx
        rcases List.mem_cons.1 hx with rfl | hx
        · exact walkFn_ok_of_ok env m m' [] x hf
        · exact (ih m').1 ⟨handles, hw⟩ x hx
    · intro hall
      obtain ⟨n, hn⟩ := hall e (List.mem_cons_self _ _)
      obtain ⟨m', hm'⟩ := walkFn_ok_of_ok env [] n m e hn
      obtain ⟨handles, hw⟩ := (ih m').2 (fun x hx => hall x (List.mem_cons_of_mem _ hx))
      exact ⟨handles, by simp only [walk, hm']; exact hw⟩

end AuditOwners

namespace AuditOwners

theorem found_iff (users : List User) (k : String) :
    found users k = true ↔ ∃ c ∈ users, c.Login = k := by
  induction users with
  | nil => simp [found]
  | cons v rest ih =>
    unfold found
    by_cases hv : v.Login = k
    · simp [hv]
    · simp [hv, ih]

theorem findMissing_fold (users : List User) (ks : List String) (st : List String × List Effect) :
    (ks.foldl (missingStep users) st).1 = st.1 ++ ks.filter (fun k => !found users k) := by
  induction ks generalizing st with
  | nil => simp
  | cons k ks ih =>
    rw [List.foldl_cons, ih]
    unfold missingStep
    by_cases hk : found users k = true
    · simp [hk]
    · simp [hk]

theorem findMissing_fst (users : List User) (ks : List String) :
    (findMissing users ks).1 = ks.filter (fun k => !found users k) := by
  unfold findMissing
  rw [findMissing_fold]
  simp

theorem findMissing_fold_requests (users : List User) (ks : List String)
    (st : List String × List Effect) :
    addRequests (ks.foldl (missingStep users) st).2 = addRequests st.2 := by
  induction ks generalizing st with
  | nil => simp
  | cons k ks ih =>
    rw [List.foldl_cons, ih]
    unfold missingStep
    by_cases hk : found users k = true
    · simp [hk]
    · simp [hk, addRequests, List.filterMap_append]

theorem addRequests_append (a b : List Effect) :
    addRequests (a ++ b) = addRequests a ++ addRequests b := by
  simp [addRequests, List.filterMap_append]

theorem addRequests_report (nameList : List String) : addRequests (report nameList) = [] := by
  unfold report
  rw [addRequests_append, addRequests_append]
  have hmid : addRequests (nameList.map (fun v => Effect.println ["*", v])) = [] := by
    induction nameList with
    | nil => rfl
    | cons v rest ih => simp [addRequests]
  rw [hmid]
  simp [addRequests]

theorem addRequests_remediate (add : Nat → String → Except String Response) (i : Nat)
    (nameList : List String) :
    addRequests (remediate add i nameList)
      = nameList.map (fun v => ("kubernetes", "charts", v, "pull")) := by
  induction nameList generalizing i with
  | nil => rfl
  | cons v rest ih =>
    unfold remediate
    rw [addRequests_append, ih]
    cases hadd : add i v with
    | error err => simp [addRequests]
    | ok resp =>
      by_cases hs : (decide (resp.StatusCode ≥ 300) || decide (resp.StatusCode < 200)) = true
      · simp [addRequests, hs]
      · simp [addRequests, hs]

end AuditOwners

namespace AuditOwners

/-- C1: for a set of gathered handles `handles` (a map's keys, so without
repetition), every order `ks` in which `range` enumerates them and every
collaborator list `users`, the list `nameList` computed by the program holds
exactly the handles for which no collaborator has that login under exact
string equality, each of them once; it is empty when every handle is the login
of some collaborator. -/
theorem missing_is_set_difference (handles : HandleMap) (ks : List String) (users : List User)
    (hset : handles.Nodup) (hks : ks.Perm handles) :
    (∀ h, (findMissing users ks).1.count h
        = if h ∈ handles ∧ ∀ c ∈ users, c.Login ≠ h then 1 else 0) ∧
    (∀ h, h ∈ (findMissing users ks).1 ↔ h ∈ handles ∧ ∀ c ∈ users, c.Login ≠ h) ∧
    ((∀ h ∈ handles, ∃ c ∈ users, c.Login = h) → (findMissing users ks).1 = []) := by
  have hnd : ks.Nodup := hks.nodup_iff.2 hset
  have hmem : ∀ h, h ∈ (findMissing users ks).1 ↔ h ∈ handles ∧ ∀ c ∈ users, c.Login ≠ h := by
    intro h
    rw [findMissing_fst, List.mem_filter, hks.mem_iff]
    have hf : (!found users h) = true ↔ ∀ c ∈ users, c.Login ≠ h := by
      rw [Bool.not_eq_true', ← Bool.not_eq_true, found_iff]
      simp
    simp only [hf]
  have hnd' : (findMissing users ks).1.Nodup := by
    rw [findMissing_fst]
    exact hnd.filter _
  refine ⟨?_, hmem, ?_⟩
  · intro h
    by_cases hc : h ∈ handles ∧ ∀ c ∈ users, c.Login ≠ h
    · rw [if_pos hc]
      exact List.count_eq_one_of_mem hnd' ((hmem h).2 hc)
    · rw [if_neg hc]
      exact List.count_eq_zero_of_not_mem (fun hm => hc ((hmem h).1 hm))
  · intro hall
    apply List.eq_nil_iff_forall_not_mem.2
    intro h hm
    obtain ⟨hh, hno⟩ := (hmem h).1 hm
    obtain ⟨c, hc, hlogin⟩ := hall h hh
    exact hno c hc hlogin

/-- The scenario of C1: the handles a, b, c against the collaborators a, c
leave exactly b. -/
theorem missing_is_set_difference_witness :
    (findMissing [⟨"a"⟩, ⟨"c"⟩] ["c", "a", "b"]).1 = ["b"] ∧
    ∀ h, h ∈ (findMissing [⟨"a"⟩, ⟨"c"⟩] ["c", "a", "b"]).1
      ↔ h ∈ ["a", "b", "c"] ∧ ∀ c ∈ [(⟨"a"⟩ : User), ⟨"c"⟩], c.Login ≠ h :=
  ⟨by decide,
   (missing_is_set_difference ["a", "b", "c"] ["c", "a", "b"] [⟨"a"⟩, ⟨"c"⟩]
      (by decide) (by decide)).2.1⟩

/-- C2: when the walk over `entries` succeeds with the handles `handles`, a
handle is a member exactly when it occurs among the approvers or the reviewers
of some parsed `OWNERS` file, no handle is held twice, a walk over any
permutation `entries'` of the entries succeeds with the same set of handles,
and adding a handle that is present changes nothing. -/
theorem handles_are_union (env : Env) (entries entries' : List WalkEntry) (handles : HandleMap)
    (hperm : entries'.Perm entries) (hwalk : walk env [] entries = .ok handles) :
    (∀ h, h ∈ handles ↔ ∃ e ∈ entries, e.name = "OWNERS" ∧
        ∃ y, readOwners env e.path = .ok y ∧ (h ∈ y.Approvers ∨ h ∈ y.Reviewers)) ∧
    handles.Nodup ∧
    (∃ handles', walk env [] entries' = .ok handles' ∧ handles'.Perm handles ∧
        ∀ h, h ∈ handles' ↔ h ∈ handles) ∧
    (∀ (m : HandleMap) (v : String), v ∈ m → addHandle m v = m) := by
  have hmem := fun h => walk_mem env entries [] handles hwalk h
  have hnd := walk_nodup env entries [] handles List.nodup_nil hwalk
  refine ⟨?_, hnd, ?_, addHandle_of_mem⟩
  · intro h
    rw [hmem h]
    simp
  · have hall := (walk_ok_iff env entries []).1 ⟨handles, hwalk⟩
    obtain ⟨handles', hw'⟩ := (walk_ok_iff env entries' []).2
      (fun e he => hall e (hperm.mem_iff.1 he))
    have hmem' := fun h => walk_mem env entries' [] handles' hw' h
    have hnd' := walk_nodup env entries' [] handles' List.nodup_nil hw'
    have hsame : ∀ h, h ∈ handles' ↔ h ∈ handles := by
      intro h
      rw [hmem h, hmem' h]
      constructor
      · rintro (hm | ⟨e, he, hr⟩)
        · exact Or.inl hm
        · exact Or.inr ⟨e, hperm.mem_iff.1 he, hr⟩
      · rintro (hm | ⟨e, he, hr⟩)
        · exact Or.inl hm
        · exact Or.inr ⟨e, hperm.mem_iff.2 he, hr⟩
    exact ⟨handles', hw', (List.perm_ext_iff_of_nodup hnd' hnd).2 hsame, hsame⟩

end AuditOwners

namespace AuditOwners

/-- The scenario of C2: the walk gathers a, b, c, and so does the walk that
visits the two directories in the other order. -/
theorem handles_are_union_witness :
    walk scenario [] scenario.entries = .ok ["a", "b", "c"] ∧
    ∃ handles', walk scenario [] scenarioSwapped = .ok handles' ∧
      handles'.Perm ["a", "b", "c"] ∧ ∀ h, h ∈ handles' ↔ h ∈ ["a", "b", "c"] :=
  ⟨by rfl,
   (handles_are_union scenario scenario.entries scenarioSwapped ["a", "b", "c"]
      (by decide) (by rfl)).2.2.1⟩

/-- C3: in a run that reaches the remediation block with flag `-a` set, the
add-collaborator requests are exactly one request with permission "pull" for
each handle of `nameList`, in order, whatever the calls answer, and the run
ends with status 0; the same holds for the remediation loop on every list and
every assignment of outcomes to its calls.  The trace of the run ends with the
trace of the remediation loop, and in that loop the round of a handle is the
request, followed by one error line naming the handle when the call ends in a
transport error or is answered with a status outside [200,300) and by nothing
when the status lies in [200,300), followed in every case by the rounds of the
remaining handles. -/
theorem remediation_one_request_each (env : Env) (handles : HandleMap) (users : List User)
    (htoken : env.GITHUB_TOKEN ≠ "") (hwalk : walk env [] env.entries = .ok handles)
    (husers : env.ListCollaborators = .ok users) (hflag : env.updateCollab = true) :
    addRequests (main env).effects
      = (findMissing users (env.rangeKeys handles)).1.map
          (fun v => ("kubernetes", "charts", v, "pull")) ∧
    (main env).exitCode = 0 ∧
    (∀ (add : Nat → String → Except String Response) (i : Nat) (nameList : List String),
      addRequests (remediate add i nameList)
        = nameList.map (fun v => ("kubernetes", "charts", v, "pull"))) ∧
    (main env).effects
      = [Effect.listCollaborators "kubernetes" "charts"]
          ++ (findMissing users (env.rangeKeys handles)).2
          ++ (if env.bulletList then report (findMissing users (env.rangeKeys handles)).1
              else [])
          ++ remediate env.AddCollaborator 0 (findMissing users (env.rangeKeys handles)).1 ∧
    (∀ (add : Nat → String → Except String Response) (i : Nat), remediate add i [] = []) ∧
    (∀ (add : Nat → String → Except String Response) (i : Nat) (v : String)
        (rest : List String) (err : String), add i v = .error err →
      remediate add i (v :: rest)
        = Effect.addCollaborator "kubernetes" "charts" v "pull"
          :: Effect.printf "ERROR: Unable to add %q as collaborator: %s" [v, err]
          :: remediate add (i + 1) rest) ∧
    (∀ (add : Nat → String → Except String Response) (i : Nat) (v : String)
        (rest : List String) (resp : Response), add i v = .ok resp →
        (resp.StatusCode < 200 ∨ 300 ≤ resp.StatusCode) →
      remediate add i (v :: rest)
        = Effect.addCollaborator "kubernetes" "charts" v "pull"
          :: Effect.printf "ERROR: Unable to add %q as collaborator. Response %s"
              [v, resp.Status]
          :: remediate add (i + 1) rest) ∧
    (∀ (add : Nat → String → Except String Response) (i : Nat) (v : String)
        (rest : List String) (resp : Response), add i v = .ok resp →
        200 ≤ resp.StatusCode → resp.StatusCode < 300 →
      remediate add i (v :: rest)
        = Effect.addCollaborator "kubernetes" "charts" v "pull"
          :: remediate add (i + 1) rest) := by
  refine ⟨?_, ?_, addRequests_remediate, ?_, ?_, ?_, ?_, ?_⟩
  · unfold main
    rw [if_neg htoken, hwalk, husers]
    simp only [hflag, if_true]
    rw [addRequests_append, addRequests_append, addRequests_append, addRequests_remediate]
    have h1 : addRequests [Effect.listCollaborators "kubernetes" "charts"] = [] := rfl
    have h2 : addRequests (findMissing users (env.rangeKeys handles)).2 = [] := by
      unfold findMissing
      rw [findMissing_fold_requests]
      rfl
    have h3 : addRequests
        (if env.bulletList then report (findMissing users (env.rangeKeys handles)).1 else [])
        = [] := by
      split
      · exact addRequests_report _
      · rfl
    rw [h1, h2, h3]
    simp
  · unfold main
    rw [if_neg htoken, hwalk, husers]
  · unfold main
    rw [if_neg htoken, hwalk, husers]
    simp only [hflag, if_true]
  · intro add i
    rfl
  · intro add i v rest err hadd
    rw [remediate, hadd]
    rfl
  · intro add i v rest resp hadd hstatus
    have hc : (decide (resp.StatusCode ≥ 300) || decide (resp.StatusCode < 200)) = true := by
      rcases hstatus with h | h
      · simp [h]
      · simp [h]
    rw [remediate, hadd]
    simp only [hc, if_true]
    rfl
  · intro add i v rest resp hadd hlo hhi
    have hc : (decide (resp.StatusCode ≥ 300) || decide (resp.StatusCode < 200)) = false := by
      have h1 : ¬ resp.StatusCode ≥ 300 := by omega
      have h2 : ¬ resp.StatusCode < 200 := by omega
      simp [h1, h2]
    rw [remediate, hadd]
    simp only [hc]
    rfl

/-- A run for C3 in which the first call fails in transport and the second is
answered 404: both missing handles are requested, each failure is followed by
its error line, and the run ends with 0. -/
theorem remediation_one_request_each_witness :
    addRequests (main scenarioFailing).effects
      = [("kubernetes", "charts", "c", "pull"), ("kubernetes", "charts", "b", "pull")] ∧
    (main scenarioFailing).exitCode = 0 ∧
    remediate scenarioFailing.AddCollaborator 0 ("c" :: ["b"])
      = Effect.addCollaborator "kubernetes" "charts" "c" "pull"
        :: Effect.printf "ERROR: Unable to add %q as collaborator: %s"
            ["c", "dial tcp: i/o timeout"]
        :: remediate scenarioFailing.AddCollaborator (0 + 1) ["b"] ∧
    remediate scenarioFailing.AddCollaborator 1 ("b" :: [])
      = Effect.addCollaborator "kubernetes" "charts" "b" "pull"
        :: Effect.printf "ERROR: Unable to add %q as collaborator. Response %s"
            ["b", (⟨404, "404 Not Found"⟩ : Response).Status]
        :: remediate scenarioFailing.AddCollaborator (1 + 1) [] ∧
    remediate scenario.AddCollaborator 0 ("b" :: [])
      = Effect.addCollaborator "kubernetes" "charts" "b" "pull"
        :: remediate scenario.AddCollaborator (0 + 1) [] :=
  ⟨(remediation_one_request_each scenarioFailing ["a", "b", "c"] [⟨"a"⟩]
      (by decide) (by rfl) (by rfl) (by rfl)).1,
   (remediation_one_request_each scenarioFailing ["a", "b", "c"] [⟨"a"⟩]
      (by decide) (by rfl) (by rfl) (by rfl)).2.1,
   (remediation_one_request_each scenarioFailing ["a", "b", "c"] [⟨"a"⟩]
      (by decide) (by rfl) (by rfl) (by rfl)).2.2.2.2.2.1
      scenarioFailing.AddCollaborator 0 "c" ["b"] "dial tcp: i/o timeout" rfl,
   (remediation_one_request_each scenarioFailing ["a", "b", "c"] [⟨"a"⟩]
      (by decide) (by rfl) (by rfl) (by rfl)).2.2.2.2.2.2.1
      scenarioFailing.AddCollaborator 1 "b" [] ⟨404, "404 Not Found"⟩ rfl
      (Or.inr (by decide)),
   (remediation_one_request_each scenarioFailing ["a", "b", "c"] [⟨"a"⟩]
      (by decide) (by rfl) (by rfl) (by rfl)).2.2.2.2.2.2.2
      scenario.AddCollaborator 0 "b" [] ⟨201, "201 Created"⟩ rfl
      (by decide) (by decide)⟩

/-- C8: when the entries before `e` are walked without error and visiting
`e`, or reading or parsing `e` named `OWNERS`, yields the error `err`, the walk
ends at `e` with `err`, and the run prints that error and exits with status 1
without any request to the remote API, whatever was gathered before and
whatever entries follow; an entry visited without error whose name is not
`OWNERS` leaves the handles as they are and yields no error. -/
theorem walk_fails_fast (env : Env) (pre post : List WalkEntry) (e : WalkEntry)
    (gathered : HandleMap) (err : String)
    (htoken : env.GITHUB_TOKEN ≠ "")
    (hentries : env.entries = pre ++ e :: post)
    (hpre : walk env [] pre = .ok gathered)
    (herr : e.err = some err ∨
      (e.err = none ∧ e.name = "OWNERS" ∧
        (env.ReadFile e.path = .error err ∨
          ∃ b, env.ReadFile e.path = .ok b ∧ env.Unmarshal b = .error err))) :
    walk env [] env.entries = .error err ∧
    main env = ⟨1, [Effect.println ["Error walking the directory tree:", err]]⟩ ∧
    (∀ x ∈ (main env).effects, x.isRequest = false) ∧
    (∀ (m : HandleMap) (x : WalkEntry), x.err = none → x.name ≠ "OWNERS" →
      walkFn env m x = .ok m) := by
  have hfn : walkFn env gathered e = .error err := by
    unfold walkFn
    rcases herr with he | ⟨he, hn, hread | ⟨b, hread, hparse⟩⟩
    · rw [he]
    · rw [he]
      simp [hn, readOwners, hread]
    · rw [he]
      simp [hn, readOwners, hread, hparse]
  have hgen : ∀ (l : List WalkEntry) (m : HandleMap), walk env m l = .ok gathered →
      walk env m (l ++ e :: post) = .error err := by
    intro l
    induction l with
    | nil =>
      intro m hm
      simp only [walk, Except.ok.injEq] at hm
      subst hm
      simp [walk, hfn]
    | cons x rest ih =>
      intro m hm
      simp only [walk] at hm
      simp only [List.cons_append, walk]
      cases hx : walkFn env m x with
      | error e1 => rw [hx] at hm; simp at hm
      | ok m' =>
        rw [hx] at hm
        exact ih m' hm
  have hwalk : walk env [] env.entries = .error err := by
    rw [hentries]
    exact hgen pre [] hpre
  have hmain : main env = ⟨1, [Effect.println ["Error walking the directory tree:", err]]⟩ := by
    unfold main
    rw [if_neg htoken, hwalk]
  refine ⟨hwalk, hmain, ?_, ?_⟩
  · rw [hmain]
    intro x hx
    simp only [List.mem_singleton] at hx
    subst hx
    rfl
  · intro m x hx hn
    unfold walkFn
    rw [hx]
    simp [hn]

/-- A run for C8: the second `OWNERS` file does not parse; the run prints the
parse error and exits with status 1, though a and b were gathered before and a
third file follows. -/
theorem walk_fails_fast_witness :
    main scenarioBroken
      = ⟨1, [Effect.println ["Error walking the directory tree:", "yaml: unmarshal error"]]⟩ :=
  (walk_fails_fast scenarioBroken [⟨".", none, "."⟩, ⟨"x/OWNERS", none, "OWNERS"⟩]
    [⟨"z/OWNERS", none, "OWNERS"⟩] ⟨"y/OWNERS", none, "OWNERS"⟩ ["a", "b"]
    "yaml: unmarshal error" (by decide) (by rfl) (by rfl)
    (Or.inr ⟨rfl, rfl, Or.inr ⟨"reviewers: [b", rfl, rfl⟩⟩)).2.1

end AuditOwners

/-! ## Properties of `gen-owners` -/

namespace GenOwners

theorem startsWith_space (s : List Char) :
    startsWith s [' '] = true ↔ ∃ t, s = ' ' :: t := by
  cases s with
  | nil => simp [startsWith]
  | cons c t =>
    cases t <;> simp [startsWith]

theorem containsAt_space (s : List Char) : containsAt s [' '] = true ↔ ' ' ∈ s := by
  induction s with
  | nil => simp [containsAt, startsWith]
  | cons c t ih =>
    unfold containsAt
    rw [Bool.or_eq_true, ih, startsWith_space, List.mem_cons]
    constructor
    · rintro (⟨u, hu⟩ | hm)
      · left
        simp only [List.cons.injEq] at hu
        exact hu.1.symm
      · exact Or.inr hm
    · rintro (hc | hm)
      · exact Or.inl ⟨t, by rw [hc]⟩
      · exact Or.inr hm

/-- The test `strings.Contains(name, " ")` holds exactly when the character
U+0020 occurs in the name. -/
theorem stringsContains_space (s : String) :
    stringsContains s " " = true ↔ ' ' ∈ s.data := by
  unfold stringsContains
  exact containsAt_space s.data

theorem searches_append (a b : List Effect) : searches (a ++ b) = searches a ++ searches b := by
  simp [searches, List.filterMap_append]

theorem serialized_append (a b : List Effect) :
    serialized (a ++ b) = serialized a ++ serialized b := by
  simp [serialized, List.filterMap_append]

/-- Every call of `lookupName` issues one search, for `name + " " + email`. -/
theorem lookupName_searches (env : Env) (i : Nat) (name email : String) :
    searches (lookupName env i name email).2 = [name ++ " " ++ email] := by
  unfold lookupName
  by_cases ht : env.GITHUB_TOKEN = ""
  · cases hs : env.SearchUsers i (name ++ " " ++ email) with
    | error err => simp [ht, hs, searches]
    | ok users =>
      rcases users with _ | ⟨v, _ | ⟨w, rest⟩⟩ <;> simp [ht, hs, searches]
  · cases hs : env.SearchUsers i (name ++ " " ++ email) with
    | error err => simp [ht, hs, searches]
    | ok users =>
      rcases users with _ | ⟨v, _ | ⟨w, rest⟩⟩ <;> simp [ht, hs, searches]

theorem lookupName_serialized (env : Env) (i : Nat) (name email : String) :
    serialized (lookupName env i name email).2 = [] := by
  unfold lookupName
  by_cases ht : env.GITHUB_TOKEN = ""
  · cases hs : env.SearchUsers i (name ++ " " ++ email) with
    | error err => simp [ht, hs, serialized]
    | ok users =>
      rcases users with _ | ⟨v, _ | ⟨w, rest⟩⟩ <;> simp [ht, hs, serialized]
  · cases hs : env.SearchUsers i (name ++ " " ++ email) with
    | error err => simp [ht, hs, serialized]
    | ok users =>
      rcases users with _ | ⟨v, _ | ⟨w, rest⟩⟩ <;> simp [ht, hs, serialized]

theorem lookupName_error (env : Env) (i : Nat) (name email err : String)
    (hs : env.SearchUsers i (name ++ " " ++ email) = .error err) :
    (lookupName env i name email).1 = "" := by
  unfold lookupName
  simp [hs]

theorem lookupName_single (env : Env) (i : Nat) (name email : String) (v : User)
    (hs : env.SearchUsers i (name ++ " " ++ email) = .ok [v]) :
    (lookupName env i name email).1 = v.GetLogin := by
  unfold lookupName
  simp [hs]

theorem lookupName_other (env : Env) (i : Nat) (name email : String) (users : List User)
    (hs : env.SearchUsers i (name ++ " " ++ email) = .ok users) (hlen : users.length ≠ 1) :
    (lookupName env i name email).1 = "" := by
  unfold lookupName
  rcases users with _ | ⟨v, _ | ⟨w, rest⟩⟩
  · simp [hs]
  · simp at hlen
  · simp [hs]

/-- What `lookupAndAppend` leaves in the record: the string returned by
`lookupName` at the end of both lists when it is not empty, nothing else. -/
theorem lookupAndAppend_fst (env : Env) (i : Nat) (st : ownersConfig × List Effect)
    (m : Maintainer) :
    (lookupAndAppend env i st m).1
      = if (lookupName env i m.Name m.Email).1 ≠ ""
        then appendBoth st.1 (lookupName env i m.Name m.Email).1 else st.1 := by
  unfold lookupAndAppend
  by_cases h : (lookupName env i m.Name m.Email).1 = "" <;> simp [h]

theorem lookupAndAppend_snd (env : Env) (i : Nat) (st : ownersConfig × List Effect)
    (m : Maintainer) :
    (lookupAndAppend env i st m).2 = st.2 ++ (lookupName env i m.Name m.Email).2 := by
  unfold lookupAndAppend
  by_cases h : (lookupName env i m.Name m.Email).1 = "" <;> simp [h]

/-- The round of a maintainer for whom the program searches: the name holds a
space, or the existence check was answered with a status other than 200. -/
theorem resolve_of_search (env : Env) (i : Nat) (st : ownersConfig × List Effect)
    (m : Maintainer)
    (h : ' ' ∈ m.Name.data ∨
      ∃ resp, env.Get i ("https://github.com/" ++ m.Name) = .ok resp ∧ resp.StatusCode ≠ 200) :
    (resolve env i st m).1 = (lookupAndAppend env i (st.1, []) m).1 ∧
    searches (resolve env i st m).2 = searches st.2 ++ [m.Name ++ " " ++ m.Email] ∧
    serialized (resolve env i st m).2 = serialized st.2 := by
  have hfst : ∀ out : List Effect,
      (lookupAndAppend env i (st.1, out) m).1 = (lookupAndAppend env i (st.1, []) m).1 := by
    intro out
    rw [lookupAndAppend_fst, lookupAndAppend_fst]
  unfold resolve
  by_cases hsp : stringsContains m.Name " " = true
  · simp only [hsp, Bool.not_true, Bool.false_eq_true, if_false]
    refine ⟨hfst st.2, ?_, ?_⟩
    · rw [lookupAndAppend_snd, searches_append, lookupName_searches]
    · rw [lookupAndAppend_snd, serialized_append, lookupName_serialized, List.append_nil]
  · have hno : ' ' ∉ m.Name.data := fun hm => hsp ((stringsContains_space m.Name).2 hm)
    rcases h with hm | ⟨resp, hget, hstatus⟩
    · exact absurd hm hno
    · simp only [hsp, Bool.not_false, if_true, hget, hstatus, ne_eq, not_false_eq_true]
      refine ⟨hfst _, ?_, ?_⟩
      · rw [lookupAndAppend_snd, searches_append, lookupName_searches, searches_append]
        simp [searches]
      · rw [lookupAndAppend_snd, serialized_append, lookupName_serialized, serialized_append]
        simp [serialized]

/-- The round of a maintainer for whom the program does not search: the name
holds no space and the existence check ended in an error or was answered 200. -/
theorem resolve_of_no_search (env : Env) (i : Nat) (st : ownersConfig × List Effect)
    (m : Maintainer) (hname : ' ' ∉ m.Name.data) :
    (∀ err, env.Get i ("https://github.com/" ++ m.Name) = .error err →
      (resolve env i st m).1 = st.1 ∧ searches (resolve env i st m).2 = searches st.2 ∧
      serialized (resolve env i st m).2 = serialized st.2) ∧
    (∀ resp, env.Get i ("https://github.com/" ++ m.Name) = .ok resp → resp.StatusCode = 200 →
      (resolve env i st m).1 = appendBoth st.1 m.Name ∧
      searches (resolve env i st m).2 = searches st.2 ∧
      serialized (resolve env i st m).2 = serialized st.2) := by
  have hsp : stringsContains m.Name " " = false := by
    rw [← Bool.not_eq_true]
    exact fun h => hname ((stringsContains_space m.Name).1 h)
  constructor
  · intro err hget
    unfold resolve
    simp [hsp, hget, searches_append, serialized_append, searches, serialized]
  · intro resp hget hstatus
    unfold resolve
    simp [hsp, hget, hstatus, searches_append, serialized_append, searches, serialized]

end GenOwners

namespace GenOwners

/-- C4 (amended): in the round of a maintainer whose name holds the space
character U+0020, or whose name holds no space and whose existence check was
answered with a status other than 200, one user search is made, for the query
`name + " " + email`; in the round of a maintainer whose name holds no space
and whose existence check ended in a transport error, no search is made and
the record stays as it was. -/
theorem search_fallback (env : Env) (i : Nat) (st : ownersConfig × List Effect)
    (m : Maintainer) :
    ((' ' ∈ m.Name.data ∨ (' ' ∉ m.Name.data ∧
        ∃ resp, env.Get i ("https://github.com/" ++ m.Name) = .ok resp ∧ resp.StatusCode ≠ 200)) →
      searches (resolve env i st m).2 = searches st.2 ++ [m.Name ++ " " ++ m.Email]) ∧
    ((' ' ∉ m.Name.data ∧ ∃ err, env.Get i ("https://github.com/" ++ m.Name) = .error err) →
      searches (resolve env i st m).2 = searches st.2 ∧ (resolve env i st m).1 = st.1) := by
  constructor
  · rintro (hsp | ⟨_, resp, hget, hstatus⟩)
    · exact (resolve_of_search env i st m (Or.inl hsp)).2.1
    · exact (resolve_of_search env i st m (Or.inr ⟨resp, hget, hstatus⟩)).2.1
  · rintro ⟨hname, err, hget⟩
    obtain ⟨h1, h2, _⟩ := (resolve_of_no_search env i st m hname).1 err hget
    exact ⟨h2, h1⟩

/-- Two rounds for C4: Alice Smith, whose name holds a space, is searched for;
alice, whose existence check ends in a transport error, is not. -/
theorem search_fallback_witness :
    searches (resolve scenario 1 (⟨[], []⟩, []) ⟨"Alice Smith", "a@x.com"⟩).2
      = [] ++ ["Alice Smith a@x.com"] ∧
    searches (resolve scenarioNoSearch 0 (⟨[], []⟩, []) ⟨"alice", "alice@x.com"⟩).2 = [] :=
  ⟨(search_fallback scenario 1 (⟨[], []⟩, []) ⟨"Alice Smith", "a@x.com"⟩).1
      (Or.inl (by decide)),
   ((search_fallback scenarioNoSearch 0 (⟨[], []⟩, []) ⟨"alice", "alice@x.com"⟩).2
      ⟨by decide, "dial tcp: i/o timeout", rfl⟩).1⟩

/-- C4 as stated fails: in the run `scenarioNoSearch` the name alice holds no
whitespace and its existence check fails in transport, the name of the second
maintainer holds a tab, and the run makes no search at all. -/
theorem search_fallback_counterexample :
    (∀ c ∈ "alice".data, c.isWhitespace = false) ∧
    scenarioNoSearch.Get 0 ("https://github.com/" ++ "alice") = .error "dial tcp: i/o timeout" ∧
    (∃ c ∈ "Alice\tSmith".data, c.isWhitespace = true) ∧
    scenarioNoSearch.LoadChartfile scenarioNoSearch.chartYaml
      = .ok ⟨[⟨"alice", "alice@x.com"⟩, ⟨"Alice\tSmith", "a@x.com"⟩]⟩ ∧
    searches (main scenarioNoSearch).effects = [] :=
  ⟨by decide, rfl, by decide, rfl, by rfl⟩

/-- C5 (amended): in the round of a maintainer for whom the program searches,
if the search returns exactly one user and the login of that user is not the
empty string, `lookupName` returns that login and it is appended to both
lists; if the search returns exactly one user with an empty login, a number of
users other than one, or an error, `lookupName` returns the empty string and
the record stays as it was. -/
theorem search_result_decides (env : Env) (i : Nat) (st : ownersConfig × List Effect)
    (m : Maintainer)
    (hsearch : ' ' ∈ m.Name.data ∨
      ∃ resp, env.Get i ("https://github.com/" ++ m.Name) = .ok resp ∧ resp.StatusCode ≠ 200) :
    (∀ v, env.SearchUsers i (m.Name ++ " " ++ m.Email) = .ok [v] → v.GetLogin ≠ "" →
      (lookupName env i m.Name m.Email).1 = v.GetLogin ∧
      (resolve env i st m).1 = appendBoth st.1 v.GetLogin) ∧
    (∀ v, env.SearchUsers i (m.Name ++ " " ++ m.Email) = .ok [v] → v.GetLogin = "" →
      (lookupName env i m.Name m.Email).1 = "" ∧ (resolve env i st m).1 = st.1) ∧
    (∀ users, env.SearchUsers i (m.Name ++ " " ++ m.Email) = .ok users → users.length ≠ 1 →
      (lookupName env i m.Name m.Email).1 = "" ∧ (resolve env i st m).1 = st.1) ∧
    (∀ err, env.SearchUsers i (m.Name ++ " " ++ m.Email) = .error err →
      (lookupName env i m.Name m.Email).1 = "" ∧ (resolve env i st m).1 = st.1) := by
  have hres := (resolve_of_search env i st m hsearch).1
  rw [lookupAndAppend_fst] at hres
  have hempty : (lookupName env i m.Name m.Email).1 = "" →
      (lookupName env i m.Name m.Email).1 = "" ∧ (resolve env i st m).1 = st.1 := by
    intro h
    refine ⟨h, ?_⟩
    rw [hres, h]
    simp
  refine ⟨?_, ?_, ?_, ?_⟩
  · intro v hs hlogin
    have h := lookupName_single env i m.Name m.Email v hs
    refine ⟨h, ?_⟩
    rw [hres, h, if_pos hlogin]
  · intro v hs hlogin
    exact hempty ((lookupName_single env i m.Name m.Email v hs).trans hlogin)
  · intro users hs hlen
    exact hempty (lookupName_other env i m.Name m.Email users hs hlen)
  · intro err hs
    exact hempty (lookupName_error env i m.Name m.Email err hs)

/-- The scenario of C5: for Alice Smith the search finds the one user
alice123, which becomes the approver and the reviewer. -/
theorem search_result_decides_witness :
    (resolve scenario 1 (⟨[], []⟩, []) ⟨"Alice Smith", "a@x.com"⟩).1
      = ⟨["alice123"], ["alice123"]⟩ :=
  ((search_result_decides scenario 1 (⟨[], []⟩, []) ⟨"Alice Smith", "a@x.com"⟩
      (Or.inl (by decide))).1 ⟨some "alice123"⟩ rfl (by decide)).2

/-- C5 as stated fails: in the run `scenarioEmptyLogin` the search for Alice
Smith returns exactly one user, whose login is the empty string, and that
login is not appended: the record that is serialized has two empty lists. -/
theorem search_result_counterexample :
    scenarioEmptyLogin.SearchUsers 0 ("Alice Smith" ++ " " ++ "a@x.com") = .ok [⟨some ""⟩] ∧
    (resolve scenarioEmptyLogin 0 (⟨[], []⟩, []) ⟨"Alice Smith", "a@x.com"⟩).1
      ≠ appendBoth ⟨[], []⟩ (User.GetLogin ⟨some ""⟩) ∧
    serialized (main scenarioEmptyLogin).effects = [⟨[], []⟩] :=
  ⟨rfl, by decide, by rfl⟩

/-- C6 (amended): in the round of a maintainer whose name holds no space (so
in particular of one whose name holds no whitespace) and whose existence check
is answered with the status 200, the name is appended to both lists, no search
is made, and the round does nothing but the existence check. -/
theorem valid_name_accepted (env : Env) (i : Nat) (st : ownersConfig × List Effect)
    (m : Maintainer) (resp : Response)
    (hname : ' ' ∉ m.Name.data)
    (hget : env.Get i ("https://github.com/" ++ m.Name) = .ok resp)
    (hstatus : resp.StatusCode = 200) :
    (resolve env i st m).1 = appendBoth st.1 m.Name ∧
    searches (resolve env i st m).2 = searches st.2 ∧
    (resolve env i st m).2 = st.2 ++ [Effect.httpGet ("https://github.com/" ++ m.Name)] := by
  obtain ⟨h1, h2, _⟩ := (resolve_of_no_search env i st m hname).2 resp hget hstatus
  refine ⟨h1, h2, ?_⟩
  have hsp : stringsContains m.Name " " = false := by
    rw [← Bool.not_eq_true]
    exact fun h => hname ((stringsContains_space m.Name).1 h)
  unfold resolve
  simp [hsp, hget, hstatus]

/-- The scenario of C6: alice with a successful existence check becomes the
approver and the reviewer. -/
theorem valid_name_accepted_witness :
    (resolve scenario 0 (⟨[], []⟩, []) ⟨"alice", "alice@x.com"⟩).1 = ⟨["alice"], ["alice"]⟩ ∧
    searches (resolve scenario 0 (⟨[], []⟩, []) ⟨"alice", "alice@x.com"⟩).2 = [] :=
  ⟨(valid_name_accepted scenario 0 (⟨[], []⟩, []) ⟨"alice", "alice@x.com"⟩ ⟨200⟩
      (by decide) rfl rfl).1,
   (valid_name_accepted scenario 0 (⟨[], []⟩, []) ⟨"alice", "alice@x.com"⟩ ⟨200⟩
      (by decide) rfl rfl).2.1⟩

/-- C6 as stated fails: in the run `scenarioCreated` the name dave holds no
whitespace and its existence check is answered with the success status 201,
yet the name is not appended: the round searches for "dave d@x.com" and the
record that is serialized has two empty lists. -/
theorem valid_name_accepted_counterexample :
    (∀ c ∈ "dave".data, c.isWhitespace = false) ∧
    scenarioCreated.Get 0 ("https://github.com/" ++ "dave") = .ok ⟨201⟩ ∧
    ((200 : Int) ≤ 201 ∧ (201 : Int) < 300) ∧
    (resolve scenarioCreated 0 (⟨[], []⟩, []) ⟨"dave", "d@x.com"⟩).1
      ≠ appendBoth ⟨[], []⟩ "dave" ∧
    searches (resolve scenarioCreated 0 (⟨[], []⟩, []) ⟨"dave", "d@x.com"⟩).2
      = ["dave d@x.com"] ∧
    searches (main scenarioCreated).effects = ["dave d@x.com"] ∧
    serialized (main scenarioCreated).effects = [⟨[], []⟩] :=
  ⟨by decide, rfl, by decide, by decide, by rfl, by rfl, by rfl⟩

end GenOwners

namespace GenOwners

theorem expandBitnami_fold (l acc : List String) :
    l.foldl (fun acc v => if v = "bitnami-bot" then acc ++ bitnamiPeople else acc) acc
      = acc ++ (List.replicate (l.count "bitnami-bot") bitnamiPeople).flatten := by
  induction l generalizing acc with
  | nil => simp
  | cons v rest ih =>
    rw [List.foldl_cons, ih, List.count_cons]
    by_cases hv : v = "bitnami-bot"
    · subst hv
      simp [List.replicate_succ, List.flatten_cons]
    · simp [hv]

/-- C7: the alias expansion of a list `l` is `l` followed by one copy of the
three fixed handles for each occurrence of the bot handle in `l` (so `l` stays
as a prefix, the bot handle is kept, the appended handles are not scanned, and
a list without the bot handle is unchanged); the list of the bot handle alone
becomes the bot handle and each of the three handles once; and with flag `-b`
the record handed to the serializer has both lists expanded in this way, while
without the flag it is the record the maintainer loop left. -/
theorem expansion_once_per_occurrence (env : Env) (ms : List Maintainer) (l : List String) :
    expandBitnami l
      = l ++ (List.replicate (l.count "bitnami-bot")
          ["prydonius", "tompizmor", "sameersbn"]).flatten ∧
    (l.count "bitnami-bot" = 0 → expandBitnami l = l) ∧
    expandBitnami ["bitnami-bot"] = ["bitnami-bot", "prydonius", "tompizmor", "sameersbn"] ∧
    (buildOwners env ms).1
      = if env.handleBitnami then
          { Approvers := expandBitnami (resolveAll env 0 ms (⟨[], []⟩, [])).1.Approvers,
            Reviewers := expandBitnami (resolveAll env 0 ms (⟨[], []⟩, [])).1.Reviewers }
        else (resolveAll env 0 ms (⟨[], []⟩, [])).1 := by
  have hgen : expandBitnami l
      = l ++ (List.replicate (l.count "bitnami-bot")
          ["prydonius", "tompizmor", "sameersbn"]).flatten := by
    unfold expandBitnami
    rw [expandBitnami_fold]
    rfl
  refine ⟨hgen, ?_, by decide, ?_⟩
  · intro h0
    rw [hgen, h0]
    simp
  · unfold buildOwners handleBot
    by_cases hb : env.handleBitnami = true <;> simp [hb]

/-- A run for C7: a list without the bot handle is left as it is. -/
theorem expansion_once_per_occurrence_witness :
    expandBitnami ["alice", "alice123"] = ["alice", "alice123"] :=
  (expansion_once_per_occurrence scenario [] ["alice", "alice123"]).2.1 (by decide)

/-- C9: without a credential `audit-owners` prints the message and exits with
status 1 before any request, but `gen-owners` only prints the message inside
`lookupName`: the run `scenarioNoToken` goes on to issue the user search with
an empty access token and ends with status 0. -/
theorem missing_credential_gen_owners :
    AuditOwners.main AuditOwners.scenarioNoToken
      = ⟨1, [AuditOwners.Effect.println
          ["Error: Please supply an environment variable named GITHUB_TOKEN with a valid token"]]⟩ ∧
    scenarioNoToken.GITHUB_TOKEN = "" ∧
    (main scenarioNoToken).exitCode = 0 ∧
    (main scenarioNoToken).effects
      = [Effect.println
          ["Error: Please supply an environment variable named GITHUB_TOKEN with a valid token"],
         Effect.searchUsers "" "Alice Smith a@x.com",
         Effect.printf "Found github id %q for name %q\n" ["alice123", "Alice Smith"],
         Effect.marshal ⟨["alice123"], ["alice123"]⟩,
         Effect.println ["OWNERS file content:"],
         Effect.println ["approvers: ...\nreviewers: ...\n"]] :=
  ⟨by rfl, rfl, by rfl, by rfl⟩

end GenOwners

namespace AuditOwners

/-- Without a credential `audit-owners` does nothing but print the message and
exit with status 1. -/
theorem missing_token_fatal (env : Env) (htoken : env.GITHUB_TOKEN = "") :
    main env = ⟨1, [Effect.println
      ["Error: Please supply an environment variable named GITHUB_TOKEN with a valid token"]]⟩ := by
  unfold main
  rw [if_pos htoken]

end AuditOwners

namespace GenOwners

/-- One round appends the same list of at most one handle to both lists, and
that list does not depend on the state the round starts from. -/
theorem resolve_contribution (env : Env) (i : Nat) (st : ownersConfig × List Effect)
    (m : Maintainer) :
    (resolve env i st m).1
      = { Approvers := st.1.Approvers ++ (resolve env i (⟨[], []⟩, []) m).1.Approvers,
          Reviewers := st.1.Reviewers ++ (resolve env i (⟨[], []⟩, []) m).1.Approvers } ∧
    (resolve env i (⟨[], []⟩, []) m).1.Approvers.length ≤ 1 := by
  have hla : ∀ s : ownersConfig × List Effect,
      (lookupAndAppend env i s m).1
        = { Approvers := s.1.Approvers
              ++ (if (lookupName env i m.Name m.Email).1 ≠ ""
                  then [(lookupName env i m.Name m.Email).1] else []),
            Reviewers := s.1.Reviewers
              ++ (if (lookupName env i m.Name m.Email).1 ≠ ""
                  then [(lookupName env i m.Name m.Email).1] else []) } := by
    intro s
    rw [lookupAndAppend_fst]
    by_cases h : (lookupName env i m.Name m.Email).1 = "" <;> simp [h, appendBoth]
  by_cases hsp : ' ' ∈ m.Name.data
  · have h1 := (resolve_of_search env i st m (Or.inl hsp)).1
    have h2 := (resolve_of_search env i (⟨[], []⟩, []) m (Or.inl hsp)).1
    rw [h1, h2, hla, hla]
    by_cases h : (lookupName env i m.Name m.Email).1 = "" <;> simp [h]
  · cases hget : env.Get i ("https://github.com/" ++ m.Name) with
    | error err =>
      have h1 := ((resolve_of_no_search env i st m hsp).1 err hget).1
      have h2 := ((resolve_of_no_search env i (⟨[], []⟩, []) m hsp).1 err hget).1
      rw [h1, h2]
      simp
    | ok resp =>
      by_cases hstatus : resp.StatusCode = 200
      · have h1 := ((resolve_of_no_search env i st m hsp).2 resp hget hstatus).1
        have h2 := ((resolve_of_no_search env i (⟨[], []⟩, []) m hsp).2 resp hget hstatus).1
        rw [h1, h2]
        simp [appendBoth]
      · have h1 := (resolve_of_search env i st m (Or.inr ⟨resp, hget, hstatus⟩)).1
        have h2 := (resolve_of_search env i (⟨[], []⟩, []) m (Or.inr ⟨resp, hget, hstatus⟩)).1
        rw [h1, h2, hla, hla]
        by_cases h : (lookupName env i m.Name m.Email).1 = "" <;> simp [h]

theorem resolve_serialized (env : Env) (i : Nat) (st : ownersConfig × List Effect)
    (m : Maintainer) : serialized (resolve env i st m).2 = serialized st.2 := by
  by_cases hsp : ' ' ∈ m.Name.data
  · exact (resolve_of_search env i st m (Or.inl hsp)).2.2
  · cases hget : env.Get i ("https://github.com/" ++ m.Name) with
    | error err => exact ((resolve_of_no_search env i st m hsp).1 err hget).2.2
    | ok resp =>
      by_cases hstatus : resp.StatusCode = 200
      · exact ((resolve_of_no_search env i st m hsp).2 resp hget hstatus).2.2
      · exact (resolve_of_search env i st m (Or.inr ⟨resp, hget, hstatus⟩)).2.2

/-- The maintainer loop appends, to both lists, the contributions of the
rounds in maintainer order. -/
theorem resolveAll_contributions (env : Env) (ms : List Maintainer) (k : Nat)
    (st : ownersConfig × List Effect) :
    (resolveAll env k ms st).1
      = { Approvers := st.1.Approvers ++ ((ms.enumFrom k).map
            (fun p => (resolve env p.1 (⟨[], []⟩, []) p.2).1.Approvers)).flatten,
          Reviewers := st.1.Reviewers ++ ((ms.enumFrom k).map
            (fun p => (resolve env p.1 (⟨[], []⟩, []) p.2).1.Approvers)).flatten } ∧
    serialized (resolveAll env k ms st).2 = serialized st.2 := by
  induction ms generalizing k st with
  | nil => simp [resolveAll]
  | cons m rest ih =>
    simp only [resolveAll]
    obtain ⟨h1, h2⟩ := ih (k + 1) (resolve env k st m)
    rw [h1, h2, resolve_serialized]
    refine ⟨?_, rfl⟩
    rw [(resolve_contribution env k st m).1]
    simp [List.enumFrom_cons, List.append_assoc]

theorem contributions_length (env : Env) (ms : List Maintainer) (k : Nat) :
    ((ms.enumFrom k).map
        (fun p => (resolve env p.1 (⟨[], []⟩, []) p.2).1.Approvers)).flatten.length
      ≤ ms.length := by
  induction ms generalizing k with
  | nil => simp
  | cons m rest ih =>
    simp only [List.enumFrom_cons, List.map_cons, List.flatten_cons, List.length_append,
      List.length_cons]
    have h1 := (resolve_contribution env k (⟨[], []⟩, []) m).2
    have h2 := ih (k + 1)
    omega

theorem appendHelmIgnore_serialized (env : Env) (d : String) :
    serialized (appendHelmIgnore env d).effects = [] := by
  unfold appendHelmIgnore
  by_cases hu : env.updateHelmIgnore = true
  · simp only [hu, if_true]
    cases env.OpenFile (env.Join d ".helmignore") with
    | some err => rfl
    | none =>
      cases env.Write (env.Join d ".helmignore") "# OWNERS file for Kubernetes\nOWNERS\n" with
      | some err => rfl
      | none =>
        cases env.Close (env.Join d ".helmignore") with
        | some err => rfl
        | none => rfl
  · simp [hu, serialized]

theorem persist_serialized (env : Env) (d out : String) :
    serialized (persist env d out).effects = [] := by
  unfold persist
  by_cases hw : env.writeOwners = true
  · simp only [hw, if_true]
    cases env.WriteFile (env.Join d "OWNERS") out with
    | some err => rfl
    | none =>
      simp only [serialized_append, appendHelmIgnore_serialized]
      rfl
  · simp [hw, appendHelmIgnore_serialized]

theorem buildOwners_lists (env : Env) (ms : List Maintainer) :
    (buildOwners env ms).1.Approvers = (buildOwners env ms).1.Reviewers ∧
    serialized (buildOwners env ms).2 = [] := by
  obtain ⟨h1, h2⟩ := resolveAll_contributions env ms 0 (⟨[], []⟩, [])
  unfold buildOwners handleBot
  by_cases hb : env.handleBitnami = true
  · simp only [hb, if_true]
    rw [h1, h2]
    exact ⟨rfl, rfl⟩
  · simp only [hb, if_false, Bool.false_eq_true]
    rw [h1, h2]
    exact ⟨rfl, rfl⟩

/-- The records a run hands to the serializer: the one built from the
maintainers of the chart, or none when the chart cannot be loaded. -/
theorem serialized_main (env : Env) :
    serialized (main env).effects
      = match env.LoadChartfile env.chartYaml with
        | .error _ => []
        | .ok chart => [(buildOwners env chart.Maintainers).1] := by
  unfold main
  cases env.LoadChartfile env.chartYaml with
  | error err => rfl
  | ok chart =>
    simp only
    cases env.Marshal (buildOwners env chart.Maintainers).1 with
    | error err =>
      simp only [serialized_append, (buildOwners_lists env chart.Maintainers).2]
      rfl
    | ok out =>
      simp only [serialized_append, (buildOwners_lists env chart.Maintainers).2,
        persist_serialized]
      rfl

/-- C10: for every maintainer list, every answer of the existence checks and
searches and either setting of flag `-b`, the record handed to the serializer
has equal approvers and reviewers lists, element for element; before the alias
expansion both lists are the contributions of the rounds in maintainer order,
each round contributing at most one handle, so neither is longer than the
maintainer list. -/
theorem approvers_equal_reviewers (env : Env) (ms : List Maintainer) :
    (buildOwners env ms).1.Approvers = (buildOwners env ms).1.Reviewers ∧
    (serialized (main env).effects).all (fun o => decide (o.Approvers = o.Reviewers)) = true ∧
    (resolveAll env 0 ms (⟨[], []⟩, [])).1.Approvers
      = ((ms.enumFrom 0).map
          (fun p => (resolve env p.1 (⟨[], []⟩, []) p.2).1.Approvers)).flatten ∧
    (resolveAll env 0 ms (⟨[], []⟩, [])).1.Reviewers
      = (resolveAll env 0 ms (⟨[], []⟩, [])).1.Approvers ∧
    (∀ (i : Nat) (m : Maintainer), (resolve env i (⟨[], []⟩, []) m).1.Approvers.length ≤ 1) ∧
    (resolveAll env 0 ms (⟨[], []⟩, [])).1.Approvers.length ≤ ms.length := by
  obtain ⟨h1, _⟩ := resolveAll_contributions env ms 0 (⟨[], []⟩, [])
  refine ⟨(buildOwners_lists env ms).1, ?_, ?_, ?_, ?_, ?_⟩
  · rw [serialized_main]
    cases env.LoadChartfile env.chartYaml with
    | error err => rfl
    | ok chart => simp [(buildOwners_lists env chart.Maintainers).1]
  · rw [h1]
    simp
  · rw [h1]
  · exact fun i m => (resolve_contribution env i (⟨[], []⟩, []) m).2
  · rw [h1]
    simpa using contributions_length env ms 0

end GenOwners
